import Mathlib

/-!
Shallow embedding of the matrixpng-py repository
(src/matrixpng/__init__.py and src/matrixpng/_pngTextChunks.py).

Python strings are modelled as lists of Unicode code points (`List Nat`),
byte strings as lists of byte values (`List Nat`, each < 256), Python
floats as rationals (`ℚ`; every operation the quantizer performs is exact
on the inputs considered), and fallible Python code as `Except PyError`.
-/

/-- Python exceptions that the modelled code can raise, together with the
structured error kinds the specification names (the latter are never
produced by the source code; they exist so that statements about them can
be made and refuted).  `assertionError` carries the assert message. -/
inductive PyError where
  | typeError : PyError
  | valueError : PyError
  | indexError : PyError
  | zeroDivisionError : PyError
  | unicodeDecodeError : PyError
  | unicodeEncodeError : PyError
  | zlibError : PyError
  | assertionError : List Nat → PyError
  | malformedMetadataRecord : PyError
  | unsupportedCompressionMethod : PyError
  | invalidConfiguration : PyError
  deriving DecidableEq, Repr

/-- Code points of a Lean string literal, used to write Python `str` values. -/
def pyS (s : String) : List Nat := s.data.map Char.toNat

/-- Characters of a Lean string literal, used to write the PNG mode strings. -/
def pyC (s : String) : List Char := s.data

/-- Model of `bytes.decode("latin_1")`: each byte becomes the code point of the same
value; never fails on bytes. -/
def latin1Decode (b : List Nat) : List Nat := b

/-- Model of `str.encode("latin_1")`: fails (UnicodeEncodeError) on a code point above 255. -/
def latin1Encode (s : List Nat) : Except PyError (List Nat) :=
  if s.all (· < 256) then .ok s else .error .unicodeEncodeError

/-- Model of `bytes.decode("ascii")`: fails (UnicodeDecodeError) on a byte above 127. -/
def asciiDecode (b : List Nat) : Except PyError (List Nat) :=
  if b.all (· < 128) then .ok b else .error .unicodeDecodeError

/-- Model of `str.encode("ascii")`: fails on a code point above 127. -/
def asciiEncode (s : List Nat) : Except PyError (List Nat) :=
  if s.all (· < 128) then .ok s else .error .unicodeEncodeError

/-- UTF-8 encoding of one Unicode scalar value (1 to 4 bytes). -/
def utf8EncodeChar (c : Nat) : List Nat :=
  if c < 128 then [c]
  else if c < 2048 then [192 + c / 64, 128 + c % 64]
  else if c < 65536 then [224 + c / 4096, 128 + c / 64 % 64, 128 + c % 64]
  else [240 + c / 262144, 128 + c / 4096 % 64, 128 + c / 64 % 64, 128 + c % 64]

/-- Model of `str.encode("utf-8")`: fails on lone surrogates or out-of-range code
points, otherwise concatenates the per-character encodings. -/
def utf8Encode (s : List Nat) : Except PyError (List Nat) :=
  if s.all (fun c => c < 1114112 && !(55296 ≤ c && c < 57344)) then
    .ok ((s.map utf8EncodeChar).flatten)
  else .error .unicodeEncodeError

/-- Strict UTF-8 decoding (`bytes.decode("utf-8")`), rejecting bad leading
bytes, bad continuation bytes, overlong forms, surrogates and values above
U+10FFFF; `none` models UnicodeDecodeError. -/
def utf8Decode : List Nat → Option (List Nat)
  | [] => some []
  | b :: rest =>
    if b < 128 then (utf8Decode rest).map (b :: ·)
    else if b < 194 then none
    else if b < 224 then
      match rest with
      | b1 :: r =>
        if 128 ≤ b1 && b1 < 192 then
          (utf8Decode r).map (((b - 192) * 64 + (b1 - 128)) :: ·)
        else none
      | [] => none
    else if b < 240 then
      match rest with
      | b1 :: b2 :: r =>
        if (128 ≤ b1 && b1 < 192) && (128 ≤ b2 && b2 < 192) then
          let c := (b - 224) * 4096 + (b1 - 128) * 64 + (b2 - 128)
          if 2048 ≤ c && !(55296 ≤ c && c < 57344) then
            (utf8Decode r).map (c :: ·)
          else none
        else none
      | _ => none
    else if b < 245 then
      match rest with
      | b1 :: b2 :: b3 :: r =>
        if ((128 ≤ b1 && b1 < 192) && (128 ≤ b2 && b2 < 192)) && (128 ≤ b3 && b3 < 192) then
          let c := (b - 240) * 262144 + (b1 - 128) * 4096 + (b2 - 128) * 64 + (b3 - 128)
          if 65536 ≤ c && c < 1114112 then (utf8Decode r).map (c :: ·) else none
        else none
      | _ => none
    else none

/-- Model of `bytes.decode("utf-8")` as an `Except`, raising UnicodeDecodeError. -/
def utf8DecodeE (b : List Nat) : Except PyError (List Nat) :=
  match utf8Decode b with
  | some s => .ok s
  | none => .error .unicodeDecodeError

/-- Split a byte string at its first NUL byte: `some (before, after)` when a
NUL exists, `none` otherwise.  Helper for `splitNul`. -/
def splitOnce : List Nat → Option (List Nat × List Nat)
  | [] => none
  | b :: bs =>
    if b = 0 then some ([], bs)
    else (splitOnce bs).map (fun p => (b :: p.1, p.2))

/-- Model of `s.split(b"\x00", maxsplit=k)`: split at the leftmost NUL bytes, at most
`k` times; the final part keeps any remaining NUL bytes. -/
def splitNul : Nat → List Nat → List (List Nat)
  | 0, s => [s]
  | k + 1, s =>
    match splitOnce s with
    | none => [s]
    | some (a, b) => a :: splitNul k b

/-- The fields produced by `ChunkITXT._split_chunkdata`: raw keyword bytes,
the compressed flag byte, the compression-method byte, raw language bytes,
raw translated-keyword bytes, raw text bytes. -/
structure SplitRec where
  keyword : List Nat
  compressed : Nat
  compressionMethod : Nat
  language : List Nat
  translatedKeyword : List Nat
  text : List Nat
  deriving DecidableEq, Repr

/-- Model of `ChunkITXT._split_chunkdata(s)`:
`t = s.split(b"\x00", maxsplit=1)`, then `t[1][0]`, `t[1][1]`,
`t[1][2:].split(b"\x00", maxsplit=2)` and its elements `[0]`, `[1]`, `[2]`.
Each Python index access that can be out of range raises IndexError. -/
def split_chunkdata (s : List Nat) : Except PyError SplitRec :=
  let t := splitNul 1 s
  match t[0]?, t[1]? with
  | some kw, some rest =>
    match rest[0]?, rest[1]? with
    | some c, some m =>
      let t2 := splitNul 2 (rest.drop 2)
      match t2[0]?, t2[1]?, t2[2]? with
      | some lang, some tk, some txt =>
        .ok ⟨kw, c, m, lang, tk, txt⟩
      | _, _, _ => .error .indexError
    | _, _ => .error .indexError
  | _, _ => .error .indexError

/-- The decoded state of a `ChunkITXT` object: keyword, compressed flag,
compression method, language tag, translated keyword and text, with the
string fields stored as decoded code-point lists. -/
structure ITXTRec where
  keyword : List Nat
  compressed : Nat
  compressionMethod : Nat
  lang : List Nat
  translatedKeyword : List Nat
  text : List Nat
  deriving DecidableEq, Repr

/-- The assert message used in `ChunkITXT.__init__` and `ChunkITXT.pack`. -/
def unknownCompressionMsg : List Nat := pyS "Unknown compression method."

/-- The parsing branch of `ChunkITXT.__init__` on the chunk-data bytes:
split the chunk data, decode keyword (latin-1), take the flag bytes, decode
language (ascii) and translated keyword (utf-8); if the compressed flag is
truthy, `assert compression_method == 0` (AssertionError otherwise), then
zlib-decompress the payload and utf-8 decode it, else utf-8 decode the raw
payload.  `decompress` models `zlib.decompress`; `none` models `zlib.error`. -/
def parseChunkData (decompress : List Nat → Option (List Nat)) (d : List Nat) :
    Except PyError ITXTRec := do
  let r ← split_chunkdata d
  let kw := latin1Decode r.keyword
  let lang ← asciiDecode r.language
  let tk ← utf8DecodeE r.translatedKeyword
  if r.compressed ≠ 0 then
    if r.compressionMethod ≠ 0 then
      .error (.assertionError unknownCompressionMsg)
    else
      match decompress r.text with
      | none => .error .zlibError
      | some raw => do
        let text ← utf8DecodeE raw
        .ok ⟨kw, r.compressed, r.compressionMethod, lang, tk, text⟩
  else do
    let text ← utf8DecodeE r.text
    .ok ⟨kw, r.compressed, r.compressionMethod, lang, tk, text⟩

/-- Model of `ChunkITXT.__init__(keyword=k, text=t)` (the construction branch): the
record is compressed (flag 1), zlib (method 0), language `"en-us"`, and the
translated keyword is the keyword itself. -/
def mkNewChunkITXT (keyword text : List Nat) : ITXTRec :=
  ⟨keyword, 1, 0, pyS "en-us", keyword, text⟩

/-- Model of `ChunkITXT.__init__(chunk_data=d)`: when `d` is nonempty the
chunk data is parsed; when `d` is empty the constructor silently builds a
fresh default record from the default arguments `keyword=""`, `text=""`
(no error is raised). -/
def parseITXT (decompress : List Nat → Option (List Nat)) (d : List Nat) :
    Except PyError ITXTRec :=
  if 0 < d.length then parseChunkData decompress d
  else .ok (mkNewChunkITXT [] [])

/-- Model of `ChunkITXT.pack()`.  If the flag is truthy: assert the method is 0, then
`t = zlib.compress(text.encode("utf-8"))`; otherwise `t = self._text`, which
remains a `str`.  Then `b"\x00".join([keyword.encode("latin_1"),
(chr(flag) + chr(method)).encode("utf-8") + lang.encode("ascii"),
translated_keyword.encode("utf-8"), t])`; in the uncompressed branch the
final element is a `str`, so after the three byte segments are built the
join raises TypeError.  `compress` models `zlib.compress`. -/
def packITXT (compress : List Nat → List Nat) (r : ITXTRec) :
    Except PyError (List Nat) :=
  if r.compressed ≠ 0 then
    if r.compressionMethod ≠ 0 then .error (.assertionError unknownCompressionMsg)
    else do
      let tb ← utf8Encode r.text
      let t := compress tb
      let kwB ← latin1Encode r.keyword
      let flB ← utf8Encode [r.compressed, r.compressionMethod]
      let langB ← asciiEncode r.lang
      let tkB ← utf8Encode r.translatedKeyword
      .ok (kwB ++ 0 :: (flB ++ langB) ++ 0 :: tkB ++ 0 :: t)
  else do
    let kwB ← latin1Encode r.keyword
    let flB ← utf8Encode [r.compressed, r.compressionMethod]
    let langB ← asciiEncode r.lang
    let tkB ← utf8Encode r.translatedKeyword
    let _ := (kwB, flB, langB, tkB)
    .error .typeError

/-- Model of `mode.rstrip("A")`: strip trailing `'A'` characters (the alpha marker),
leaving the non-alpha channel letters. -/
def rstripA (m : List Char) : List Char :=
  (m.reverse.dropWhile (· = 'A')).reverse

/-- Model of `MatrixPNG._nan_value()`: `2 ** bitdepth / 2 - 1` (mid gray) when there
is more than one non-alpha channel, else `0` (black). -/
def nan_value (mode : List Char) (bd : Nat) : Nat :=
  if 1 < (rstripA mode).length then 2 ^ bd / 2 - 1 else 0

/-- Model of `np.clip(x, lo, hi)` on a scalar: `minimum(hi, maximum(lo, x))`. -/
def pyClip (x lo hi : ℚ) : ℚ := min hi (max lo x)

/-- Python `int(x)` on a float: truncation toward zero. -/
def pyTrunc (q : ℚ) : ℤ := if q < 0 then -⌊-q⌋ else ⌊q⌋

/-- Model of `MatrixPNG._setup_quantization()`:
`_quantization_delta = float(z_max - z_min) / float(quantization_levels - 1)`,
where `quantization_levels = len(colormap)`.  Python float division raises
ZeroDivisionError when the divisor is zero (`levels == 1`). -/
def quantization_delta (zmin zmax : ℚ) (levels : Nat) : Except PyError ℚ :=
  if ((levels : ℚ) - 1) = 0 then .error .zeroDivisionError
  else .ok ((zmax - zmin) / ((levels : ℚ) - 1))

/-- The per-cell index computation of `MatrixPNG.matrix2png`:
`k = int(np.clip([float(v - z_min) / quantization_delta], 0,
quantization_levels - 1)[0])`.  Division by a zero delta raises
ZeroDivisionError. -/
def quantize_index (v zmin delta : ℚ) (levels : Nat) : Except PyError ℤ :=
  if delta = 0 then .error .zeroDivisionError
  else .ok (pyTrunc (pyClip ((v - zmin) / delta) 0 ((levels : ℚ) - 1)))

/-- A matrix cell as seen by `matrix2png`: a number, the `np.nan` singleton
object (the only value for which `matrix[i][j] is np.nan` is true), or a NaN
that is a different object (e.g. produced by arithmetic, or any element read
out of a numpy array, which is a fresh `np.float64`). -/
inductive Cell where
  | num : ℚ → Cell
  | npNan : Cell
  | floatNan : Cell
  deriving DecidableEq, Repr

/-- One iteration of the pixel-assignment loop of `MatrixPNG.matrix2png`,
returning the cell's channel values.  The cell slot starts filled with the
max-alpha value `2 ^ bitdepth - 1`.  If `matrix[i][j] is np.nan`, the first
`len(mode.rstrip("A"))` channels are set to `_nan_value()`.  Otherwise the
quantization arithmetic runs: for a NaN that is not the singleton the
quotient is NaN, `np.clip` keeps it NaN, and `int(NaN)` raises ValueError
(with a zero delta the division raises ZeroDivisionError first); for a
number the clipped, truncated index selects a colormap row, which numpy
copies into the non-alpha channels (IndexError when out of range,
ValueError when the row length does not match the slice). -/
def cell_pixel (mode : List Char) (bd : Nat) (colormap : List (List Nat))
    (zmin delta : ℚ) : Cell → Except PyError (List Nat)
  | .npNan =>
    .ok (List.replicate (rstripA mode).length (nan_value mode bd) ++
      List.replicate (mode.length - (rstripA mode).length) (2 ^ bd - 1))
  | .floatNan =>
    if delta = 0 then .error .zeroDivisionError else .error .valueError
  | .num v => do
    let k ← quantize_index v zmin delta colormap.length
    match colormap.get? k.toNat with
    | none => .error .indexError
    | some row =>
      if row.length = (rstripA mode).length then
        .ok (row ++ List.replicate (mode.length - (rstripA mode).length) (2 ^ bd - 1))
      else .error .valueError

/-- The claim's quantizer as the specification words it: round the scaled
quotient to the nearest integer, then clamp the index to
`[0, level_count - 1]`.  (Refinement reference, written from the spec, to be
compared with `quantize_index`, which is written from the source.) -/
def specRoundThenClamp (v zmin zmax : ℚ) (levels : Nat) : ℤ :=
  let delta := (zmax - zmin) / ((levels : ℚ) - 1)
  min ((levels : ℤ) - 1) (max 0 (round ((v - zmin) / delta)))

/-- The parts of a `MatrixPNG` object's state that mode/bitdepth
configuration touches: the `_png` dict entries `"mode"` and `"bitdepth"`
(both `None` before the setters run), the arguments of the most recent
`ColorMaps(mode=..., bd=..., colormap=...)` call (the loaded palette is
opaque, so it is represented by the argument triple; `none` before any
load), and the `_colormap` name attribute. -/
structure MPNGState where
  mode : Option (List Char)
  bitdepth : Option Nat
  colormapParams : Option (List Char × Nat × List Nat)
  colormapName : List Nat
  deriving DecidableEq, Repr

/-- Model of `MatrixPNG._setup_colors()`: when both mode and bitdepth are set, load
`ColorMaps(mode, bitdepth, _colormap)`; otherwise do nothing. -/
def setup_colors (s : MPNGState) : MPNGState :=
  match s.mode, s.bitdepth with
  | some m, some bd => { s with colormapParams := some (m, bd, s.colormapName) }
  | _, _ => s

/-- The `MatrixPNG.mode` setter: raise ValueError unless the mode is one of
`'L'`, `'LA'`, `'RGB'`, `'RGBA'`; otherwise store it and call
`_setup_colors()`. -/
def set_mode (m : List Char) (s : MPNGState) : Except PyError MPNGState :=
  if m = pyC "L" ∨ m = pyC "LA" ∨ m = pyC "RGB" ∨ m = pyC "RGBA" then
    .ok (setup_colors { s with mode := some m })
  else .error .valueError

/-- The `MatrixPNG.bitdepth` setter: raise ValueError unless the bit depth
is 8 or 16; otherwise store it.  (It does not call `_setup_colors()`.) -/
def set_bitdepth (bd : Nat) (s : MPNGState) : Except PyError MPNGState :=
  if bd = 8 ∨ bd = 16 then .ok { s with bitdepth := some bd }
  else .error .valueError

/-- The mode/bitdepth/colormap part of `MatrixPNG.__init__(mode, bitdepth)`:
start with `_png = {"mode": None, "bitdepth": None, ...}` (and `_colormap`
not yet assigned, written here as `[]`; the setters never read it at this
point because the bitdepth is still `None`), run the mode setter, run the
bitdepth setter, set `_colormap = "ebb"`, then call `_setup_colors()`. -/
def init_state (m : List Char) (bd : Nat) : Except PyError MPNGState := do
  let s0 : MPNGState := ⟨none, none, none, []⟩
  let s1 ← set_mode m s0
  let s2 ← set_bitdepth bd s1
  let s3 := { s2 with colormapName := pyS "ebb" }
  .ok (setup_colors s3)

/-- A Python value stored in the `_scale` dict: an int or a string.  (The
modelled theorems never need float stringification.) -/
inductive PyVal where
  | vInt : ℤ → PyVal
  | vStr : List Nat → PyVal
  deriving DecidableEq, Repr

/-- Model of `str(n)` for a Python int: decimal digits, with a leading `'-'` when
negative. -/
def intStr (n : ℤ) : List Nat :=
  if n < 0 then 45 :: (Nat.toDigits 10 (-n).toNat).map Char.toNat
  else (Nat.toDigits 10 n.toNat).map Char.toNat

/-- Model of `str(value)` for an entry of the `_scale` dict: `str(None) = "None"`,
ints print in decimal, strings print as themselves. -/
def pyStrOpt : Option PyVal → List Nat
  | none => pyS "None"
  | some (.vInt n) => intStr n
  | some (.vStr s) => s

/-- The `_scale` dict: nine optional entries, in its fixed insertion order
`z_min, z_max, z_units, x_min, x_max, x_units, y_min, y_max, y_units`. -/
structure ScaleDict where
  z_min : Option PyVal
  z_max : Option PyVal
  z_units : Option PyVal
  x_min : Option PyVal
  x_max : Option PyVal
  x_units : Option PyVal
  y_min : Option PyVal
  y_max : Option PyVal
  y_units : Option PyVal
  deriving DecidableEq, Repr

/-- Keys of `self._scale` paired with the stored values, in the dict's
insertion order. -/
def scaleItems (s : ScaleDict) : List (List Nat × Option PyVal) :=
  [(pyS "z_min", s.z_min), (pyS "z_max", s.z_max), (pyS "z_units", s.z_units),
   (pyS "x_min", s.x_min), (pyS "x_max", s.x_max), (pyS "x_units", s.x_units),
   (pyS "y_min", s.y_min), (pyS "y_max", s.y_max), (pyS "y_units", s.y_units)]

/-- One chunk of the output PNG: either one of the chunks already produced
by the external png encoder (pypng writes no iTXt chunks; they are opaque
here, tagged by position), or an iTXt chunk holding a `ChunkITXT` record. -/
inductive Chunk where
  | base : Nat → Chunk
  | itxt : ITXTRec → Chunk
  deriving DecidableEq, Repr

/-- Model of `chunklist.insert(-1, c)`: insert before the final element (for an empty
list, Python inserts at position 0). -/
def insertPenultimate (l : List Chunk) (c : Chunk) : List Chunk :=
  l.take (l.length - 1) ++ c :: l.drop (l.length - 1)

/-- Model of `mode.startswith("RGB")`. -/
def startsWithRGB : List Char → Bool
  | 'R' :: 'G' :: 'B' :: _ => true
  | _ => false

/-- Model of `MatrixPNG._save_png` at the level of chunk records: start from the
chunk list read back from the encoded image, then
`chunklist.insert(-1, ChunkITXT(keyword=k, text=str(self._scale[k])))` for
every `_scale` key in order, then the same for `("colormap", _colormap)`
when the mode starts with `"RGB"`, then for `("y_ascend", "up")` when
`_y_invert` else `("y_ascend", "down")`. -/
def save_png_chunks (baseIds : List Nat) (scale : ScaleDict)
    (mode : List Char) (colormapName : List Nat) (yInvert : Bool) :
    List Chunk :=
  let l0 := baseIds.map Chunk.base
  let l1 := (scaleItems scale).foldl
    (fun acc kv => insertPenultimate acc (.itxt (mkNewChunkITXT kv.1 (pyStrOpt kv.2)))) l0
  let l2 :=
    if startsWithRGB mode then
      insertPenultimate l1 (.itxt (mkNewChunkITXT (pyS "colormap") colormapName))
    else l1
  insertPenultimate l2
    (.itxt (mkNewChunkITXT (pyS "y_ascend") (pyS (if yInvert then "up" else "down"))))

deriving instance DecidableEq for Except

/-! ## Helper lemmas about the quantizer arithmetic -/

theorem floorQ_min (a b : ℚ) : ⌊min a b⌋ = min ⌊a⌋ ⌊b⌋ := by
  rcases le_total a b with h | h
  · rw [min_eq_left h, min_eq_left (Int.floor_le_floor h)]
  · rw [min_eq_right h, min_eq_right (Int.floor_le_floor h)]

theorem floorQ_max (a b : ℚ) : ⌊max a b⌋ = max ⌊a⌋ ⌊b⌋ := by
  rcases le_total a b with h | h
  · rw [max_eq_right h, max_eq_right (Int.floor_le_floor h)]
  · rw [max_eq_left h, max_eq_left (Int.floor_le_floor h)]

/-- With a nonzero delta and at least one level, the per-cell computation
`int(np.clip(q, 0, levels - 1))` equals the floor of the quotient clamped
to `[0, levels - 1]` as integers. -/
theorem quantize_index_closed_form (v zmin delta : ℚ) (levels : Nat)
    (hd : delta ≠ 0) (hl : 1 ≤ levels) :
    quantize_index v zmin delta levels =
      .ok (min ((levels : ℤ) - 1) (max 0 ⌊(v - zmin) / delta⌋)) := by
  have hn : (0 : ℚ) ≤ (levels : ℚ) - 1 := by
    have : (1 : ℚ) ≤ (levels : ℚ) := by exact_mod_cast hl
    linarith
  unfold quantize_index pyClip pyTrunc
  rw [if_neg hd]
  have h0 : (0 : ℚ) ≤ min ((levels : ℚ) - 1) (max 0 ((v - zmin) / delta)) :=
    le_min hn (le_max_left 0 _)
  rw [if_neg (not_lt.mpr h0)]
  have hcast : ((levels : ℚ) - 1) = (((levels : ℤ) - 1 : ℤ) : ℚ) := by push_cast; ring
  rw [floorQ_min, floorQ_max, hcast, Int.floor_intCast, Int.floor_zero]

/-- With at least two levels and a proper range, `_setup_quantization`
succeeds and the delta is positive. -/
theorem quantization_delta_pos (zmin zmax : ℚ) (levels : Nat)
    (h2 : 2 ≤ levels) (hlt : zmin < zmax) :
    quantization_delta zmin zmax levels = .ok ((zmax - zmin) / ((levels : ℚ) - 1)) ∧
      0 < (zmax - zmin) / ((levels : ℚ) - 1) := by
  have hn : (0 : ℚ) < (levels : ℚ) - 1 := by
    have : (2 : ℚ) ≤ (levels : ℚ) := by exact_mod_cast h2
    linarith
  constructor
  · unfold quantization_delta
    rw [if_neg hn.ne']
  · exact div_pos (sub_pos.mpr hlt) hn

/-! ## C2: the quantizer truncates; it does not round -/

/-- C2 counterexample: with `z_min = 0`, `z_max = 1`, `level_count = 2`
(so `delta = 1`) and value `3/4`, the code computes index 0 while the
claimed round-then-clamp computation gives index 1; so the claim that the
scaled quotient is rounded to the nearest integer is false of the code. -/
theorem quantizer_truncates_cex :
    quantization_delta 0 1 2 = .ok 1 ∧
      quantize_index (3 / 4) 0 1 2 = .ok 0 ∧
      specRoundThenClamp (3 / 4) 0 1 2 = 1 ∧ (0 : ℤ) ≠ 1 := by
  refine ⟨?_, ?_, ?_, by decide⟩
  · norm_num [quantization_delta]
  · norm_num [quantize_index, pyClip, pyTrunc, min_def, max_def]
  · norm_num [specRoundThenClamp, min_def, max_def, round_eq]

/-- C2 (amended): for every value `v`, every `z_min < z_max` and every
`level_count ≥ 2`, the quantizer computes
`delta = (z_max - z_min) / (level_count - 1)` and
`index = floor((v - z_min) / delta)` clamped to `[0, level_count - 1]`;
the scaled quotient is truncated (floored after the clip to a nonnegative
range), not rounded to the nearest integer. -/
theorem quantizer_floor_clamp (v zmin zmax : ℚ) (levels : Nat)
    (h2 : 2 ≤ levels) (hlt : zmin < zmax) :
    ∃ d, quantization_delta zmin zmax levels = .ok d ∧ 0 < d ∧
      quantize_index v zmin d levels =
        .ok (min ((levels : ℤ) - 1) (max 0 ⌊(v - zmin) / d⌋)) := by
  obtain ⟨hdelta, hpos⟩ := quantization_delta_pos zmin zmax levels h2 hlt
  exact ⟨_, hdelta, hpos,
    quantize_index_closed_form v zmin _ levels hpos.ne' (le_trans (by decide) h2)⟩

/-- C2 witness: the amended theorem applied at `v = 3/4`, `z_min = 0`,
`z_max = 1`, `level_count = 2`. -/
theorem quantizer_floor_clamp_witness :
    ((2 ≤ 2) ∧ (0 : ℚ) < 1) ∧
      ∃ d, quantization_delta 0 1 2 = .ok d ∧ 0 < d ∧
        quantize_index (3 / 4) 0 d 2 =
          .ok (min ((2 : ℤ) - 1) (max 0 ⌊((3 : ℚ) / 4 - 0) / d⌋)) :=
  ⟨⟨by decide, zero_lt_one⟩, quantizer_floor_clamp (3 / 4) 0 1 2 (by decide) zero_lt_one⟩

/-! ## C3: boundary and clamping behavior of the quantizer -/

/-- C3: for every `level_count ≥ 2` and `z_min < z_max`, the quantizer maps
`z_min` to 0 and `z_max` to `level_count - 1`; every value below `z_min`
(resp. above `z_max`) is clamped to the boundary index 0 (resp.
`level_count - 1`); the result always lies in `[0, level_count - 1]` and
out-of-range input never raises an error. -/
theorem quantizer_boundary_clamp (zmin zmax v : ℚ) (levels : Nat)
    (h2 : 2 ≤ levels) (hlt : zmin < zmax) :
    ∃ d, quantization_delta zmin zmax levels = .ok d ∧
      quantize_index zmin zmin d levels = .ok 0 ∧
      quantize_index zmax zmin d levels = .ok ((levels : ℤ) - 1) ∧
      (v < zmin → quantize_index v zmin d levels = .ok 0) ∧
      (zmax < v → quantize_index v zmin d levels = .ok ((levels : ℤ) - 1)) ∧
      ∃ k, quantize_index v zmin d levels = .ok k ∧ 0 ≤ k ∧ k ≤ (levels : ℤ) - 1 := by
  obtain ⟨hdelta, hpos⟩ := quantization_delta_pos zmin zmax levels h2 hlt
  set d := (zmax - zmin) / ((levels : ℚ) - 1) with hd
  have hl1 : 1 ≤ levels := le_trans (by decide) h2
  have hn : (0 : ℤ) ≤ (levels : ℤ) - 1 := by
    have : (2 : ℤ) ≤ (levels : ℤ) := by exact_mod_cast h2
    omega
  have hnq : (0 : ℚ) < (levels : ℚ) - 1 := by
    have : (2 : ℚ) ≤ (levels : ℚ) := by exact_mod_cast h2
    linarith
  have hform : ∀ w, quantize_index w zmin d levels =
      .ok (min ((levels : ℤ) - 1) (max 0 ⌊(w - zmin) / d⌋)) :=
    fun w => quantize_index_closed_form w zmin d levels hpos.ne' hl1
  have hqmax : (zmax - zmin) / d = (levels : ℚ) - 1 := by
    have hz : zmax - zmin ≠ 0 := sub_ne_zero.mpr hlt.ne'
    rw [hd]
    field_simp
  refine ⟨d, hdelta, ?_, ?_, ?_, ?_, ?_⟩
  · rw [hform]
    congr 1
    rw [sub_self, zero_div, Int.floor_zero, max_self]
    exact min_eq_right hn
  · rw [hform]
    congr 1
    rw [hqmax]
    have hc : ((levels : ℚ) - 1) = (((levels : ℤ) - 1 : ℤ) : ℚ) := by push_cast; ring
    rw [hc, Int.floor_intCast, max_eq_right hn, min_self]
  · intro hv
    rw [hform]
    congr 1
    have hq : (v - zmin) / d < 0 := div_neg_of_neg_of_pos (by linarith) hpos
    have hfl : ⌊(v - zmin) / d⌋ < 0 := by
      by_contra hc
      exact absurd (Int.floor_nonneg.mp (not_lt.mp hc)) (not_le.mpr hq)
    rw [max_eq_left hfl.le]
    exact min_eq_right hn
  · intro hv
    rw [hform]
    congr 1
    have hq : ((levels : ℚ) - 1) ≤ (v - zmin) / d := by
      rw [← hqmax]
      gcongr
    have hfl : ((levels : ℤ) - 1) ≤ ⌊(v - zmin) / d⌋ := by
      rw [Int.le_floor]
      push_cast
      exact hq
    rw [max_eq_right (le_trans hn hfl), min_eq_left hfl]
  · exact ⟨_, hform v, le_min hn (le_max_left 0 _), min_le_left _ _⟩

/-- C3 witness: the boundary theorem applied at `z_min = 0`, `z_max = 1`,
`level_count = 2`, probe value `v = 5`. -/
theorem quantizer_boundary_clamp_witness :
    ((2 ≤ 2) ∧ (0 : ℚ) < 1) ∧
      ∃ d, quantization_delta 0 1 2 = .ok d ∧
        quantize_index 0 0 d 2 = .ok 0 ∧
        quantize_index 1 0 d 2 = .ok ((2 : ℤ) - 1) ∧
        ((5 : ℚ) < 0 → quantize_index 5 0 d 2 = .ok 0) ∧
        ((1 : ℚ) < 5 → quantize_index 5 0 d 2 = .ok ((2 : ℤ) - 1)) ∧
        ∃ k, quantize_index 5 0 d 2 = .ok k ∧ 0 ≤ k ∧ k ≤ (2 : ℤ) - 1 :=
  ⟨⟨by decide, zero_lt_one⟩, quantizer_boundary_clamp 0 1 5 2 (by decide) zero_lt_one⟩

/-! ## C5: equal bounds are not rejected; the code divides by zero -/

/-- C5 counterexample: with `z_min = z_max = 0` and 256 levels, the setup
step succeeds with delta 0 and the per-cell computation raises
ZeroDivisionError — the code performs the division by zero; it does not
fail with the structured configuration error the claim names. -/
theorem equal_bounds_zero_division_cex :
    quantization_delta 0 0 256 = .ok 0 ∧
      quantize_index 1 0 0 256 = .error .zeroDivisionError ∧
      (Except.error PyError.zeroDivisionError : Except PyError ℤ) ≠
        .error .invalidConfiguration := by
  exact ⟨by norm_num [quantization_delta], by norm_num [quantize_index], by decide⟩

/-- C5 (amended): with `z_max == z_min` (after defaulting) and at least two
levels, `_setup_quantization` silently computes a zero delta and the
per-cell quantization of any numeric value raises ZeroDivisionError; there
is no explicit InvalidConfiguration check, so equal bounds are not
explicitly rejected, but they are also never silently processed — each
numeric cell fails loudly with the division error. -/
theorem equal_bounds_zero_division (zmin v : ℚ) (levels : Nat) (h2 : 2 ≤ levels) :
    quantization_delta zmin zmin levels = .ok 0 ∧
      quantize_index v zmin 0 levels = .error .zeroDivisionError := by
  have hn : ((levels : ℚ) - 1) ≠ 0 := by
    have : (2 : ℚ) ≤ (levels : ℚ) := by exact_mod_cast h2
    intro h
    linarith
  constructor
  · unfold quantization_delta
    rw [if_neg hn, sub_self, zero_div]
  · unfold quantize_index
    rw [if_pos rfl]

/-- C5 witness: the amended theorem applied at `z_min = z_max = 0`,
256 levels, cell value 1. -/
theorem equal_bounds_zero_division_witness :
    (2 ≤ 256) ∧
      quantization_delta 0 0 256 = .ok 0 ∧
        quantize_index 1 0 0 256 = .error .zeroDivisionError :=
  ⟨by decide, equal_bounds_zero_division 0 1 256 (by decide)⟩

/-! ## Helper lemmas about NUL splitting, and C6 and C7 -/

/-- Characterization of a successful first split: the input decomposes as
the NUL-free part before the first NUL followed by the rest. -/
theorem splitOnce_some_spec {s a b : List Nat} (h : splitOnce s = some (a, b)) :
    s = a ++ 0 :: b ∧ (0 : Nat) ∉ a := by
  induction s generalizing a with
  | nil => simp [splitOnce] at h
  | cons x xs ih =>
    by_cases hx : x = 0
    · subst hx
      unfold splitOnce at h
      rw [if_pos rfl] at h
      injection h with h2
      injection h2 with h3 h4
      subst h3
      subst h4
      exact ⟨rfl, by simp⟩
    · unfold splitOnce at h
      rw [if_neg hx] at h
      cases hs : splitOnce xs with
      | none => rw [hs] at h; simp at h
      | some p =>
        obtain ⟨c, d⟩ := p
        rw [hs] at h
        injection h with h2
        injection h2 with h3 h4
        subst h4
        obtain ⟨hc, hnc⟩ := ih hs
        subst h3
        refine ⟨by simp [hc], ?_⟩
        intro hm
        rcases List.mem_cons.mp hm with h5 | h5
        · exact hx h5.symm
        · exact hnc h5

/-- Splitting a byte string built as a NUL-free part, a NUL and a rest
recovers exactly those two pieces. -/
theorem splitOnce_append (a b : List Nat) (h : (0 : Nat) ∉ a) :
    splitOnce (a ++ 0 :: b) = some (a, b) := by
  induction a with
  | nil => simp [splitOnce]
  | cons x xs ih =>
    have hx : x ≠ 0 := fun he => h (by simp [he])
    have hxs : (0 : Nat) ∉ xs := fun hm => h (List.mem_cons_of_mem x hm)
    show splitOnce (x :: (xs ++ 0 :: b)) = some (x :: xs, b)
    unfold splitOnce
    rw [if_neg hx, ih hxs]
    rfl

/-- A successful first split consumes exactly one NUL byte. -/
theorem count_of_splitOnce {s a b : List Nat} (h : splitOnce s = some (a, b)) :
    s.count 0 = b.count 0 + 1 := by
  obtain ⟨rfl, hna⟩ := splitOnce_some_spec h
  rw [List.count_append, List.count_cons, List.count_eq_zero.mpr hna]
  simp

/-- A NUL split produces at most one part more than the string has NUL
bytes. -/
theorem splitNul_length_le (k : Nat) (s : List Nat) :
    (splitNul k s).length ≤ s.count 0 + 1 := by
  induction k generalizing s with
  | zero => simp [splitNul]
  | succ k ih =>
    unfold splitNul
    cases h : splitOnce s with
    | none => simp
    | some p =>
      obtain ⟨a, b⟩ := p
      have hc := count_of_splitOnce h
      have hb := ih b
      simp only [List.length_cons]
      omega

/-- Any chunk-data byte string with fewer than three NUL bytes makes
`_split_chunkdata` raise IndexError: the fixed-count splits cannot produce
the required number of parts. -/
theorem split_chunkdata_lt3 (s : List Nat) (h : s.count 0 < 3) :
    split_chunkdata s = .error .indexError := by
  unfold split_chunkdata
  cases hs : splitOnce s with
  | none =>
    have hs1 : splitNul 1 s = [s] := by
      unfold splitNul
      rw [hs]
    simp [hs1]
  | some p =>
    obtain ⟨kw, rest⟩ := p
    have hs1 : splitNul 1 s = [kw, rest] := by
      unfold splitNul
      rw [hs]
      rfl
    have hcount := count_of_splitOnce hs
    rcases rest with _ | ⟨c, rest2⟩
    · simp [hs1]
    rcases rest2 with _ | ⟨m, tail⟩
    · simp [hs1]
    have htail : tail.count 0 < 2 := by
      have h1 : tail.count 0 ≤ (c :: m :: tail).count 0 :=
        List.Sublist.count_le ((List.sublist_cons_self m tail).trans (List.sublist_cons_self c (m :: tail))) 0
      omega
    have hget : (splitNul 2 tail)[2]? = none := by
      rw [List.getElem?_eq_none]
      exact le_trans (splitNul_length_le 2 tail) (by omega)
    rcases h0 : (splitNul 2 tail)[0]? with _ | lang <;>
      rcases h1 : (splitNul 2 tail)[1]? with _ | tk <;>
        simp [hs1, h0, h1, hget]

/-- C6 (amended): decoding any byte string with fewer than the three
required NUL separators raises an error — IndexError from the fixed-count
split, since the code has no dedicated MalformedMetadataRecord error — so a
malformed input is never silently partially parsed. -/
theorem malformed_decode_indexError (decompress : List Nat → Option (List Nat))
    (s : List Nat) (hne : s ≠ []) (h : s.count 0 < 3) :
    parseITXT decompress s = .error .indexError := by
  unfold parseITXT
  rw [if_pos (List.length_pos.mpr hne)]
  unfold parseChunkData
  rw [split_chunkdata_lt3 s h]
  rfl

/-- C6 counterexample: decoding the separator-free bytes `b"abc"` raises
IndexError, which is not the structured MalformedMetadataRecord error the
claim names (no such error exists in the code); and decoding the empty byte
string raises nothing at all — the constructor silently falls back to a
default-constructed record. -/
theorem malformed_decode_cex :
    parseITXT some (pyS "abc") = .error .indexError ∧
      (Except.error PyError.indexError : Except PyError ITXTRec) ≠
        .error .malformedMetadataRecord ∧
      parseITXT some [] = .ok (mkNewChunkITXT [] []) :=
  ⟨by decide, by decide, by decide⟩

/-- C6 witness: the amended theorem applied to the bytes `b"ab"`. -/
theorem malformed_decode_indexError_witness :
    (pyS "ab" ≠ [] ∧ (pyS "ab").count 0 < 3) ∧
      parseITXT some (pyS "ab") = .error .indexError :=
  ⟨⟨by decide, by decide⟩,
    malformed_decode_indexError some (pyS "ab") (by decide) (by decide)⟩

/-- C7 (amended): decoding a record-shaped byte string whose compressed
flag byte is 1 and whose compression-method byte is nonzero raises the
dedicated AssertionError with message "Unknown compression method." — the
code's guard for an unsupported compression method — before ever touching
the payload. -/
theorem badmethod_assertion (decompress : List Nat → Option (List Nat))
    (kwB langB tkB payload : List Nat) (method : Nat)
    (hkw : (0 : Nat) ∉ kwB) (hlang : (0 : Nat) ∉ langB) (htk : (0 : Nat) ∉ tkB)
    (hlangA : ∀ x ∈ langB, x < 128) (htkD : (utf8Decode tkB).isSome = true)
    (hm : method ≠ 0) :
    parseITXT decompress
        (kwB ++ 0 :: 1 :: method :: (langB ++ 0 :: (tkB ++ 0 :: payload))) =
      .error (.assertionError unknownCompressionMsg) := by
  have e1 : splitNul 1 (kwB ++ 0 :: 1 :: method :: (langB ++ 0 :: (tkB ++ 0 :: payload))) =
      [kwB, 1 :: method :: (langB ++ 0 :: (tkB ++ 0 :: payload))] := by
    unfold splitNul
    rw [splitOnce_append _ _ hkw]
    rfl
  have e2 : splitNul 2 (langB ++ 0 :: (tkB ++ 0 :: payload)) = [langB, tkB, payload] := by
    simp [splitNul, splitOnce_append _ _ hlang, splitOnce_append _ _ htk]
  have hsplit : split_chunkdata
      (kwB ++ 0 :: 1 :: method :: (langB ++ 0 :: (tkB ++ 0 :: payload))) =
      .ok ⟨kwB, 1, method, langB, tkB, payload⟩ := by
    unfold split_chunkdata
    simp [e1, e2]
  obtain ⟨tk, htkeq⟩ := Option.isSome_iff_exists.mp htkD
  have hok : ∀ (α β : Type) (x : α) (f : α → Except PyError β),
      (Except.ok x >>= f) = f x := fun _ _ _ _ => rfl
  unfold parseITXT parseChunkData
  rw [if_pos (by simp), hsplit, hok]
  simp only [asciiDecode]
  rw [if_pos (by simpa using hlangA), hok]
  simp only [utf8DecodeE, htkeq]
  rw [hok]
  simp [hm]

/-- C7 counterexample: a concrete record with flag 1 and method byte 2
raises the AssertionError, which is not a structured error type named
UnsupportedCompressionMethod (no such class exists in the code). -/
theorem badmethod_assertion_cex :
    parseITXT some [107, 0, 1, 2, 101, 110, 0, 116, 0, 120] =
        .error (.assertionError unknownCompressionMsg) ∧
      (Except.error (PyError.assertionError unknownCompressionMsg) :
          Except PyError ITXTRec) ≠
        .error .unsupportedCompressionMethod := ⟨by decide, by decide⟩

/-- C7 witness: the amended theorem applied to keyword `b"k"`, language
`b"en"`, translated keyword `b"t"`, payload `b"x"`, method byte 2. -/
theorem badmethod_assertion_witness :
    ((0 : Nat) ∉ [107] ∧ (0 : Nat) ∉ [101, 110] ∧ (0 : Nat) ∉ [116] ∧
        (∀ x ∈ [101, 110], x < 128) ∧ (utf8Decode [116]).isSome = true ∧
        (2 : Nat) ≠ 0) ∧
      parseITXT some ([107] ++ 0 :: 1 :: 2 :: ([101, 110] ++ 0 :: ([116] ++ 0 :: [120]))) =
        .error (.assertionError unknownCompressionMsg) :=
  ⟨⟨by decide, by decide, by decide, by decide, by decide, by decide⟩,
    badmethod_assertion some [107] [101, 110] [116] [120] 2
      (by decide) (by decide) (by decide) (by decide) (by decide) (by decide)⟩

/-! ## Helper lemmas about chunk insertion, and C8 and C10 -/

theorem insertPenultimate_append (l : List Chunk) (x c : Chunk) :
    insertPenultimate (l ++ [x]) c = (l ++ [c]) ++ [x] := by
  unfold insertPenultimate
  have h1 : (l ++ [x]).length - 1 = l.length := by simp
  rw [h1, List.take_left, List.drop_left]
  simp

theorem foldl_insertPenultimate {α : Type} (f : α → Chunk) (items : List α)
    (l : List Chunk) (x : Chunk) :
    items.foldl (fun acc kv => insertPenultimate acc (f kv)) (l ++ [x]) =
      (l ++ items.map f) ++ [x] := by
  induction items generalizing l with
  | nil => simp
  | cons a items ih =>
    simp only [List.foldl_cons, List.map_cons]
    rw [insertPenultimate_append, ih]
    simp

theorem mem_insertPenultimate {a c : Chunk} {l : List Chunk}
    (h : a ∈ insertPenultimate l c) : a ∈ l ∨ a = c := by
  unfold insertPenultimate at h
  rcases List.mem_append.mp h with h1 | h1
  · exact .inl (List.take_subset _ _ h1)
  · rcases List.mem_cons.mp h1 with h2 | h2
    · exact .inr h2
    · exact .inl (List.drop_subset _ _ h2)

theorem mem_foldl_insertPenultimate {α : Type} {f : α → Chunk} {items : List α}
    {l0 : List Chunk} {a : Chunk}
    (h : a ∈ items.foldl (fun acc kv => insertPenultimate acc (f kv)) l0) :
    a ∈ l0 ∨ ∃ kv ∈ items, a = f kv := by
  induction items generalizing l0 with
  | nil => exact .inl h
  | cons b items ih =>
    rcases ih (by simpa using h) with h1 | h1
    · rcases mem_insertPenultimate h1 with h2 | h2
      · exact .inl h2
      · exact .inr ⟨b, by simp, h2⟩
    · obtain ⟨kv, hkv, he⟩ := h1
      exact .inr ⟨kv, by simp [hkv], he⟩

/-- C8 (amended): on every write the records appended before the terminal
chunk are exactly: one record per `_scale` key — populated or not, an
unpopulated field stringifying as `"None"` — in the dict's fixed insertion
order, then the colormap record exactly when the mode is an RGB/RGBA mode,
then the y-orientation record with text `"up"` or `"down"`. -/
theorem save_chunks_fixed_order (init : List Nat) (lastC : Nat) (scale : ScaleDict)
    (mode : List Char) (cm : List Nat) (yi : Bool) :
    save_png_chunks (init ++ [lastC]) scale mode cm yi =
      (init.map Chunk.base ++
        ([Chunk.itxt (mkNewChunkITXT (pyS "z_min") (pyStrOpt scale.z_min)),
          Chunk.itxt (mkNewChunkITXT (pyS "z_max") (pyStrOpt scale.z_max)),
          Chunk.itxt (mkNewChunkITXT (pyS "z_units") (pyStrOpt scale.z_units)),
          Chunk.itxt (mkNewChunkITXT (pyS "x_min") (pyStrOpt scale.x_min)),
          Chunk.itxt (mkNewChunkITXT (pyS "x_max") (pyStrOpt scale.x_max)),
          Chunk.itxt (mkNewChunkITXT (pyS "x_units") (pyStrOpt scale.x_units)),
          Chunk.itxt (mkNewChunkITXT (pyS "y_min") (pyStrOpt scale.y_min)),
          Chunk.itxt (mkNewChunkITXT (pyS "y_max") (pyStrOpt scale.y_max)),
          Chunk.itxt (mkNewChunkITXT (pyS "y_units") (pyStrOpt scale.y_units))] ++
          (if startsWithRGB mode then
            [Chunk.itxt (mkNewChunkITXT (pyS "colormap") cm)]
          else []) ++
          [Chunk.itxt (mkNewChunkITXT (pyS "y_ascend")
            (pyS (if yi then "up" else "down")))])) ++
        [Chunk.base lastC] := by
  unfold save_png_chunks
  rw [List.map_append]
  simp only [List.map_cons, List.map_nil]
  rw [foldl_insertPenultimate]
  cases hrgb : startsWithRGB mode with
  | false =>
    simp only [hrgb, Bool.false_eq_true, if_false]
    rw [insertPenultimate_append]
    simp [scaleItems, List.append_assoc]
  | true =>
    simp only [hrgb, eq_self_iff_true, if_true]
    rw [insertPenultimate_append, insertPenultimate_append]
    simp [scaleItems, List.append_assoc]

/-- C8 counterexample: with `z_units` never populated (and an RGB mode), the
write path still appends a record with keyword `"z_units"` and text
`"None"`, contradicting the claim that fields that were never populated
produce no record. -/
theorem unpopulated_field_record_cex :
    Chunk.itxt (mkNewChunkITXT (pyS "z_units") (pyS "None")) ∈
      save_png_chunks [0, 1]
        ⟨some (.vInt 0), some (.vInt 15), none, none, none, none, none, none, none⟩
        (pyC "RGB") (pyS "ebb") true := by decide

/-- C10: every iTXt record in the written chunk list was constructed by
`ChunkITXT(keyword=..., text=...)` and therefore carries compressed flag 1,
compression method 0 (zlib), language tag `"en-us"` and a translated
keyword equal to its keyword; the write path never emits an uncompressed
record. -/
theorem write_records_always_compressed (baseIds : List Nat) (scale : ScaleDict)
    (mode : List Char) (cm : List Nat) (yi : Bool) (r : ITXTRec)
    (h : Chunk.itxt r ∈ save_png_chunks baseIds scale mode cm yi) :
    r.compressed = 1 ∧ r.compressionMethod = 0 ∧ r.lang = pyS "en-us" ∧
      r.translatedKeyword = r.keyword := by
  have hfields : ∀ k t, r = mkNewChunkITXT k t →
      r.compressed = 1 ∧ r.compressionMethod = 0 ∧ r.lang = pyS "en-us" ∧
        r.translatedKeyword = r.keyword := by
    intro k t he
    subst he
    exact ⟨rfl, rfl, rfl, rfl⟩
  have hL1 : Chunk.itxt r ∈ (scaleItems scale).foldl
      (fun acc kv => insertPenultimate acc
        (.itxt (mkNewChunkITXT kv.1 (pyStrOpt kv.2)))) (baseIds.map Chunk.base) →
      r.compressed = 1 ∧ r.compressionMethod = 0 ∧ r.lang = pyS "en-us" ∧
        r.translatedKeyword = r.keyword := by
    intro h2
    rcases mem_foldl_insertPenultimate h2 with h3 | ⟨kv, _, heq⟩
    · obtain ⟨n, _, hne⟩ := List.mem_map.mp h3
      exact absurd hne (by simp)
    · exact hfields _ _ (Chunk.itxt.inj heq)
  simp only [save_png_chunks] at h
  rcases mem_insertPenultimate h with h1 | heq
  · by_cases hrgb : startsWithRGB mode
    · rw [if_pos hrgb] at h1
      rcases mem_insertPenultimate h1 with h2 | heq
      · exact hL1 h2
      · exact hfields _ _ (Chunk.itxt.inj heq)
    · rw [if_neg hrgb] at h1
      exact hL1 h1
  · exact hfields _ _ (Chunk.itxt.inj heq)

/-- C10 witness: the theorem applied to the `y_ascend` record of a concrete
write. -/
theorem write_records_always_compressed_witness :
    (Chunk.itxt (mkNewChunkITXT (pyS "y_ascend") (pyS "up")) ∈
        save_png_chunks [0, 1] ⟨none, none, none, none, none, none, none, none, none⟩
          (pyC "L") (pyS "ebb") true) ∧
      ((mkNewChunkITXT (pyS "y_ascend") (pyS "up")).compressed = 1 ∧
        (mkNewChunkITXT (pyS "y_ascend") (pyS "up")).compressionMethod = 0 ∧
        (mkNewChunkITXT (pyS "y_ascend") (pyS "up")).lang = pyS "en-us" ∧
        (mkNewChunkITXT (pyS "y_ascend") (pyS "up")).translatedKeyword =
          (mkNewChunkITXT (pyS "y_ascend") (pyS "up")).keyword) :=
  ⟨by decide, write_records_always_compressed [0, 1]
    ⟨none, none, none, none, none, none, none, none, none⟩ (pyC "L") (pyS "ebb") true
    (mkNewChunkITXT (pyS "y_ascend") (pyS "up")) (by decide)⟩

/-! ## C1, C4, C9: concrete evaluations exhibiting code defects -/

/-- An uncompressed record, as decoding an externally produced uncompressed
chunk would yield it. -/
def recUncompressed : ITXTRec := ⟨pyS "k", 0, 0, pyS "en-us", pyS "k", pyS "t"⟩

/-- A record built on the write path, with non-ASCII UTF-8 text. -/
def recCompressed : ITXTRec := mkNewChunkITXT (pyS "colormap") (pyS "ebbé")

/-- C1: encode-then-decode round-trips for the compressed case (shown here
at a concrete record with non-ASCII text, with the identity instance of the
zlib compress/decompress pair), but the uncompressed case does not: `pack`
on any record with compressed flag 0 leaves the text as a `str` and
`bytes.join` raises TypeError, so `decode(encode(record))` fails for every
uncompressed record. -/
theorem pack_uncompressed_crashes :
    packITXT id recUncompressed = .error .typeError ∧
      (packITXT id recCompressed).map (parseITXT some) = .ok (.ok recCompressed) :=
  ⟨by decide, by decide⟩

/-- C4: a NaN that is not the `np.nan` singleton object (every NaN produced
by arithmetic, and every NaN read out of a numpy array) fails the
`matrix[i][j] is np.nan` identity test, so the quantization arithmetic runs
and `int(NaN)` raises ValueError instead of producing the sentinel color;
only the singleton object itself gets the sentinel (mid-gray `127` per
non-alpha channel for color modes, `0` for gray modes, at bit depth 8). -/
theorem nan_identity_check_bug :
    cell_pixel (pyC "RGB") 8 [[0, 0, 0], [255, 255, 255]] 0 1 .floatNan =
        .error .valueError ∧
      cell_pixel (pyC "RGB") 8 [[0, 0, 0], [255, 255, 255]] 0 1 .npNan =
        .ok [127, 127, 127] ∧
      cell_pixel (pyC "L") 8 [[0], [255]] 0 1 .npNan = .ok [0] ∧
      (Except.error PyError.valueError : Except PyError (List Nat)) ≠
        .ok [127, 127, 127] := by
  refine ⟨?_, by decide, by decide, by decide⟩
  norm_num [cell_pixel]

/-- The state of `MatrixPNG(mode="RGB", bitdepth=8)` right after
construction: the palette was loaded for `(RGB, 8, "ebb")`. -/
def stateRGB8 : MPNGState :=
  ⟨some (pyC "RGB"), some 8, some (pyC "RGB", 8, pyS "ebb"), pyS "ebb"⟩

/-- C9: unsupported modes and bit depths are rejected with ValueError at
configuration time, but reassigning `bitdepth` does not re-resolve the
colormap: after `MatrixPNG(mode="RGB", bitdepth=8)` followed by
`bitdepth = 16`, the state holds bitdepth 16 while the loaded palette is
still the one for `(RGB, 8)` — the palette no longer corresponds to the
current (mode, bitdepth) pair. -/
theorem bitdepth_setter_stale_palette :
    init_state (pyC "RGB") 8 = .ok stateRGB8 ∧
      set_bitdepth 16 stateRGB8 = .ok { stateRGB8 with bitdepth := some 16 } ∧
      ({ stateRGB8 with bitdepth := some 16 }).colormapParams =
        some (pyC "RGB", 8, pyS "ebb") ∧
      some (pyC "RGB", 8, pyS "ebb") ≠ some (pyC "RGB", 16, pyS "ebb") ∧
      set_mode (pyC "P") stateRGB8 = .error .valueError ∧
      set_bitdepth 12 stateRGB8 = .error .valueError :=
  ⟨by decide, by decide, by decide, by decide, by decide, by decide⟩
